/-
Verification of the a3cargo container-loading engine against its
natural-language specification.

The TypeScript source is shallowly embedded: JS numbers are modelled as
exact rationals (ℚ), in-place mutation of the item collection becomes
explicit state passing over immutable lists, and each engine function is
translated clause by clause from the source file it lives in
(src/utils.ts, src/definitions.ts and the load-plan module).
-/
import Mathlib

/-
The Batteries rational-arithmetic primitives are irreducible by default,
which blocks the elaborator-side evaluation performed by the decide
tactic.  The kernel itself checks the resulting proofs as usual; we only
lower the reducibility so that concrete rational computations evaluate.
-/
attribute [local semireducible] Rat.add Rat.sub Rat.mul Rat.inv Rat.ofScientific

/-- Cargo categories, from the closed string union `ItemCategory` in
src/definitions.ts. -/
inductive ItemCategory where
  | general
  | fragile
  | heavy
  | hazardous
  | perishable
deriving DecidableEq, Repr

/-- A cargo item, from the `CargoItem` interface in src/definitions.ts.
The string item id is modelled as a natural number; all numeric fields
are exact rationals. -/
structure CargoItem where
  id : ℕ
  label : String
  lengthIn : ℚ
  widthIn : ℚ
  heightIn : ℚ
  origLengthIn : ℚ
  origWidthIn : ℚ
  origHeightIn : ℚ
  weightLbs : ℚ
  category : ItemCategory
  color : String
  posX : ℚ
  posY : ℚ
  posZ : ℚ
  visible : Bool
  rotationY : ℕ
deriving DecidableEq, Repr

/-- Container specification, from the `ContainerSpec` interface in
src/definitions.ts. -/
structure ContainerSpec where
  name : String
  label : String
  lengthFt : ℚ
  widthFt : ℚ
  heightFt : ℚ
  maxWeightLbs : ℚ
  lengthIn : ℚ
  widthIn : ℚ
  heightIn : ℚ
deriving DecidableEq, Repr

/-- Snaps a value to the nearest grid increment, from `snapToGrid` in
src/utils.ts: `Math.round(value / gridSize) * gridSize`.  Mathlib's
`round` is `⌊x + 1/2⌋`, which agrees with JS `Math.round` (ties go up). -/
def snapToGrid (value : ℚ) (gridSize : ℚ) : ℚ :=
  ((round (value / gridSize) : ℤ) : ℚ) * gridSize

/-- AABB overlap test with epsilon 0.01, from `checkOverlap` in
src/utils.ts. -/
def checkOverlap (a : CargoItem) (b : CargoItem) : Bool :=
  let eps : ℚ := 1/100
  decide (a.posX < b.posX + b.lengthIn - eps ∧
    a.posX + a.lengthIn > b.posX + eps ∧
    a.posY < b.posY + b.heightIn - eps ∧
    a.posY + a.heightIn > b.posY + eps ∧
    a.posZ < b.posZ + b.widthIn - eps ∧
    a.posZ + a.widthIn > b.posZ + eps)

/-- One accumulation step of the support-area loop in `isSupported`
(src/utils.ts): skip the item itself, and for every other item whose top
surface is within 1 unit of this item's bottom add the clamped X/Z
footprint intersection area. -/
def supportStep (item : CargoItem) (acc : ℚ) (other : CargoItem) : ℚ :=
  if other.id = item.id then acc
  else if |other.posY + other.heightIn - item.posY| < 1 then
    let overlapX := max 0
      (min (item.posX + item.lengthIn) (other.posX + other.lengthIn) -
        max item.posX other.posX)
    let overlapZ := max 0
      (min (item.posZ + item.widthIn) (other.posZ + other.widthIn) -
        max item.posZ other.posZ)
    acc + overlapX * overlapZ
  else acc

/-- Support check, from `isSupported` in src/utils.ts: floor items
(posY ≤ 0.1) are always supported, otherwise the summed backing area must
reach 40% of the item's own footprint (`supportedArea >= baseArea * 0.4`,
with 0.4 written as the exact rational 2/5). -/
def isSupported (item : CargoItem) (allItems : List CargoItem) : Bool :=
  if item.posY ≤ 1/10 then true
  else
    let baseArea := item.lengthIn * item.widthIn
    let supportedArea := allItems.foldl (supportStep item) 0
    decide (supportedArea ≥ baseArea * (2/5))

/-- One step of the stacking fold in `findStackingY` (src/utils.ts):
skip the item itself, and when both horizontal overlaps exceed 0.5 use
the other item's top surface if it is strictly higher than the best so
far and leaves ceiling clearance. -/
def stackStep (item : CargoItem) (c : ContainerSpec)
    (acc : ℚ × Option CargoItem) (other : CargoItem) : ℚ × Option CargoItem :=
  if other.id = item.id then acc
  else
    let overlapX := min (item.posX + item.lengthIn) (other.posX + other.lengthIn) -
      max item.posX other.posX
    let overlapZ := min (item.posZ + item.widthIn) (other.posZ + other.widthIn) -
      max item.posZ other.posZ
    if overlapX > 1/2 ∧ overlapZ > 1/2 then
      let topY := other.posY + other.heightIn
      if topY > acc.1 ∧ topY + item.heightIn ≤ c.heightIn + 1/2 then (topY, some other)
      else acc
    else acc

/-- Optimal stacking height, from `findStackingY` in src/utils.ts:
fold over all items starting from floor level 0 with no stacking target. -/
def findStackingY (item : CargoItem) (allItems : List CargoItem)
    (c : ContainerSpec) : ℚ × Option CargoItem :=
  allItems.foldl (stackStep item c) (0, none)

/-- All candidate stacking levels, from `findAllStackLevels` in
src/utils.ts: floor level 0 plus the top surface of every other item that
leaves ceiling clearance for this item, deduplicated and sorted
ascending (the JS code collects a `Set` and sorts it numerically). -/
def findAllStackLevels (item : CargoItem) (allItems : List CargoItem)
    (c : ContainerSpec) : List ℚ :=
  List.insertionSort (· ≤ ·)
    ((0 :: (allItems.filter (fun other => other.id != item.id &&
        decide (other.posY + other.heightIn + item.heightIn ≤ c.heightIn + 1/2))).map
      (fun other => other.posY + other.heightIn)).dedup)

/-- Result of placement validation, from the `ValidationResult` interface
in src/utils.ts. -/
structure ValidationResult where
  valid : Bool
  warnings : List String
  errors : List String
deriving DecidableEq, Repr

/-- Placement validation, from `validatePlacement` in src/utils.ts.
The source pushes errors and clears the `valid` flag as it goes; since it
never sets `valid` back to true, `valid` equals emptiness of the error
list.  Boundary checks run in source order (length, width, height), then
overlaps against every other item in list order, then the support
warning. -/
def validatePlacement (item : CargoItem) (allItems : List CargoItem)
    (c : ContainerSpec) : ValidationResult :=
  let lengthErrors :=
    if item.posX < 0 ∨ item.posX + item.lengthIn > c.lengthIn + 1/2 then
      ["\"" ++ item.label ++ "\" exceeds container length boundary"] else []
  let widthErrors :=
    if item.posZ < 0 ∨ item.posZ + item.widthIn > c.widthIn + 1/2 then
      ["\"" ++ item.label ++ "\" exceeds container width boundary"] else []
  let heightErrors :=
    if item.posY < 0 ∨ item.posY + item.heightIn > c.heightIn + 1/2 then
      ["\"" ++ item.label ++ "\" exceeds container height boundary"] else []
  let overlapErrors :=
    (allItems.filter (fun other => other.id != item.id && checkOverlap item other)).map
      (fun other => "\"" ++ item.label ++ "\" overlaps with \"" ++ other.label ++ "\"")
  let errors := lengthErrors ++ widthErrors ++ heightErrors ++ overlapErrors
  let warnings :=
    if item.posY > 0 ∧ isSupported item allItems = false then
      ["\"" ++ item.label ++ "\" is not fully supported (floating)"] else []
  { valid := errors.isEmpty, warnings := warnings, errors := errors }

/-- Yaw rotation, from `rotateItemY` in src/utils.ts: swap length and
width and advance the rotation counter modulo 4. -/
def rotateItemY (item : CargoItem) : CargoItem :=
  { item with
    lengthIn := item.widthIn,
    widthIn := item.lengthIn,
    rotationY := (item.rotationY + 1) % 4 }

/-- Tip forward, from `rotateItemTipForward` in src/utils.ts: swap length
and height, touching nothing else. -/
def rotateItemTipForward (item : CargoItem) : CargoItem :=
  { item with
    lengthIn := item.heightIn,
    heightIn := item.lengthIn }

/-- Tip sideways, from `rotateItemTipSide` in src/utils.ts: swap width
and height, touching nothing else. -/
def rotateItemTipSide (item : CargoItem) : CargoItem :=
  { item with
    widthIn := item.heightIn,
    heightIn := item.widthIn }

/-- Weight-based display color, from `getWeightColor` in src/utils.ts. -/
def getWeightColor (weight : ℚ) : String :=
  if weight < 500 then "#34d399"
  else if weight < 2000 then "#5b8af5"
  else if weight < 5000 then "#fbbf24"
  else "#f87171"

/-- Category color palette, from `CATEGORY_COLORS` in src/definitions.ts. -/
def CATEGORY_COLORS (category : ItemCategory) : String :=
  match category with
  | .general => "#5b8af5"
  | .fragile => "#f87171"
  | .heavy => "#fbbf24"
  | .hazardous => "#fb923c"
  | .perishable => "#34d399"

/-- Total weight, from `calculateTotalWeight` in src/utils.ts. -/
def calculateTotalWeight (items : List CargoItem) : ℚ :=
  items.foldl (fun sum item => sum + item.weightLbs) 0

/-- Volume utilization percentage, from `calculateUtilization` in
src/utils.ts. -/
def calculateUtilization (items : List CargoItem) (c : ContainerSpec) : ℚ :=
  let containerVolume := c.lengthIn * c.widthIn * c.heightIn
  let itemsVolume := items.foldl
    (fun sum item => sum + item.lengthIn * item.widthIn * item.heightIn) 0
  itemsVolume / containerVolume * 100

/-- Accumulator for the weight-distribution loop in
`getWeightDistribution` (src/utils.ts): the four quadrant buckets plus
the running total. -/
structure WeightAcc where
  front : ℚ
  back : ℚ
  left : ℚ
  right : ℚ
  totalW : ℚ
deriving DecidableEq, Repr

/-- One loop iteration of `getWeightDistribution` (src/utils.ts): the
item's full weight goes to front when its center is strictly below the X
midpoint and to back otherwise, to left when strictly below the Z
midpoint and to right otherwise, and is always added to the total. -/
def weightAccStep (midLength : ℚ) (midWidth : ℚ) (acc : WeightAcc)
    (item : CargoItem) : WeightAcc :=
  let centerX := item.posX + item.lengthIn / 2
  let centerZ := item.posZ + item.widthIn / 2
  let acc1 :=
    if centerX < midLength then { acc with front := acc.front + item.weightLbs }
    else { acc with back := acc.back + item.weightLbs }
  let acc2 :=
    if centerZ < midWidth then { acc1 with left := acc1.left + item.weightLbs }
    else { acc1 with right := acc1.right + item.weightLbs }
  { acc2 with totalW := acc2.totalW + item.weightLbs }

/-- Result record of `getWeightDistribution` (src/utils.ts). -/
structure WeightDistribution where
  front : ℚ
  back : ℚ
  left : ℚ
  right : ℚ
deriving DecidableEq, Repr

/-- Quadrant weight distribution, from `getWeightDistribution` in
src/utils.ts: classify every item by its center, then convert the four
buckets to percentages of total weight; an empty total yields the
balanced 50/50/50/50 default. -/
def getWeightDistribution (items : List CargoItem) (c : ContainerSpec) :
    WeightDistribution :=
  let midLength := c.lengthIn / 2
  let midWidth := c.widthIn / 2
  let acc := items.foldl (weightAccStep midLength midWidth) ⟨0, 0, 0, 0, 0⟩
  if acc.totalW = 0 then ⟨50, 50, 50, 50⟩
  else
    { front := acc.front / acc.totalW * 100,
      back := acc.back / acc.totalW * 100,
      left := acc.left / acc.totalW * 100,
      right := acc.right / acc.totalW * 100 }

/-- Loading-order comparator of `generateLoadPlan` (load-plan module):
ascending Y with a dead zone of 1, then descending weight with a dead
zone of 10, then ascending X with a dead zone of 1, then ascending Z
exactly.  Negative result means the first item loads earlier. -/
def loadCompare (a : CargoItem) (b : CargoItem) : ℚ :=
  let yDiff := a.posY - b.posY
  if |yDiff| > 1 then yDiff
  else
    let wDiff := b.weightLbs - a.weightLbs
    if |wDiff| > 10 then wDiff
    else
      let xDiff := a.posX - b.posX
      if |xDiff| > 1 then xDiff
      else a.posZ - b.posZ

/-- One step of the loading sequence, from the `LoadStep` interface in
the load-plan module.  The human-readable `instruction` and `tips`
string fields and the optional snapshot are presentation output built
from the same data and are not modelled; the ordering and the numeric
running totals are. -/
structure LoadStep where
  stepNumber : ℕ
  item : CargoItem
  cumulativeWeight : ℚ
  cumulativeUtilization : ℚ
deriving DecidableEq, Repr

/-- The step-construction loop of `generateLoadPlan`: walk the sorted
items keeping the 0-based index and the running weight and volume. -/
def buildSteps (containerVolume : ℚ) :
    List CargoItem → ℕ → ℚ → ℚ → List LoadStep
  | [], _, _, _ => []
  | item :: rest, i, cw, cv =>
    let cw2 := cw + item.weightLbs
    let cv2 := cv + item.lengthIn * item.widthIn * item.heightIn
    { stepNumber := i + 1,
      item := item,
      cumulativeWeight := cw2,
      cumulativeUtilization := cv2 / containerVolume * 100 } ::
      buildSteps containerVolume rest (i + 1) cw2 cv2

/-- Load-plan generation, from `generateLoadPlan` in the load-plan
module: empty input gives an empty plan, otherwise sort a copy of the
items with `loadCompare` (JS `Array.prototype.sort` is stable, modelled
by a stable insertion sort on `loadCompare a b ≤ 0`) and number the
steps 1-based while accumulating weight and volume. -/
def generateLoadPlan (items : List CargoItem) (c : ContainerSpec) :
    List LoadStep :=
  if items.isEmpty then []
  else
    let sorted := List.insertionSort (fun a b => loadCompare a b ≤ 0) items
    let containerVolume := c.lengthIn * c.widthIn * c.heightIn
    buildSteps containerVolume sorted 0 0 0

/-- The iteration values of a JS loop `for (v = 0; v <= bound; v += step)`
with positive step: the multiples of the step from 0 up to the bound.
Used by the `autoPlace` scan in src/definitions.ts. -/
def gridRange (bound : ℚ) (step : ℚ) : List ℚ :=
  (List.range (if 0 ≤ bound then ⌊bound / step⌋₊ + 1 else 0)).map
    (fun (k : ℕ) => (k : ℚ) * step)

/-- An item with its position replaced, modelling the three assignments
`item.posX = x; item.posY = y; item.posZ = z` in `autoPlace`. -/
def placeAt (item : CargoItem) (x : ℚ) (y : ℚ) (z : ℚ) : CargoItem :=
  { item with posX := x, posY := y, posZ := z }

/-- The acceptance test of the `autoPlace` scan (src/definitions.ts):
the validator must report a valid placement with zero warnings. -/
def apValidAt (item : CargoItem) (items : List CargoItem) (c : ContainerSpec)
    (x : ℚ) (y : ℚ) (z : ℚ) : Bool :=
  let result := validatePlacement (placeAt item x y z) items c
  result.valid && result.warnings.isEmpty

/-- Innermost Z loop of the `autoPlace` scan: return the first accepted
position, keeping the current x and y. -/
def scanZ (ok : ℚ → ℚ → ℚ → Bool) (x : ℚ) (y : ℚ) :
    List ℚ → Option (ℚ × ℚ × ℚ)
  | [] => none
  | z :: zs => if ok x y z then some (x, y, z) else scanZ ok x y zs

/-- Middle X loop of the `autoPlace` scan: run the Z loop for each x in
turn, returning the first accepted position. -/
def scanX (ok : ℚ → ℚ → ℚ → Bool) (y : ℚ) (zs : List ℚ) :
    List ℚ → Option (ℚ × ℚ × ℚ)
  | [] => none
  | x :: xs =>
    match scanZ ok x y zs with
    | some p => some p
    | none => scanX ok y zs xs

/-- Outer Y loop of the `autoPlace` scan: run the X loop for each y in
turn, returning the first accepted position. -/
def scanY (ok : ℚ → ℚ → ℚ → Bool) (xs : List ℚ) (zs : List ℚ) :
    List ℚ → Option (ℚ × ℚ × ℚ)
  | [] => none
  | y :: ys =>
    match scanX ok y zs xs with
    | some p => some p
    | none => scanY ok xs zs ys

/-- Auto-placement, from `autoPlace` in src/definitions.ts: scan
Y-major, then X, then Z over multiples of the grid step within the
container bounds (each axis bound is container dimension minus item
dimension), stop at the first position that validates with zero
warnings, and otherwise fall back to (0, 0, 0) with the Y given by
`findStackingY` evaluated there.  The caller passes the item list
without the item being placed, exactly as `addItem` and the edit
recovery do. -/
def autoPlace (gridStep : ℚ) (item : CargoItem) (items : List CargoItem)
    (c : ContainerSpec) : CargoItem :=
  let ok := apValidAt item items c
  let ys := gridRange (c.heightIn - item.heightIn) gridStep
  let xs := gridRange (c.lengthIn - item.lengthIn) gridStep
  let zs := gridRange (c.widthIn - item.widthIn) gridStep
  match scanY ok xs zs ys with
  | some (x, y, z) => placeAt item x y z
  | none =>
    let atOrigin := placeAt item 0 0 0
    { atOrigin with posY := (findStackingY atOrigin items c).1 }

/-- Color mode, from the `ColorMode` union in src/definitions.ts. -/
inductive ColorMode where
  | category
  | weight
  | custom
deriving DecidableEq, Repr

/-- The engine state carried by the scene-manager class in
src/definitions.ts, restricted to the fields its mutating operations
read: the item collection, the active container and the snapping
configuration. -/
structure EngineState where
  items : List CargoItem
  containerSpec : ContainerSpec
  snapEnabled : Bool
  gridSize : ℚ
  colorMode : ColorMode
deriving DecidableEq, Repr

/-- Replaces the first item with the given id, modelling in-place
mutation of the object returned by `this.items.find(i => i.id === id)`. -/
def updateFirst (id : ℕ) (f : CargoItem → CargoItem) :
    List CargoItem → List CargoItem
  | [] => []
  | i :: rest => if i.id = id then f i :: rest else i :: updateFirst id f rest

/-- The three snap assignments `item.posX = snapToGrid(...)` etc. that
move, rotate and edit all perform when snapping is enabled. -/
def snapAllAxes (st : EngineState) (item : CargoItem) : CargoItem :=
  if st.snapEnabled then
    { item with
      posX := snapToGrid item.posX st.gridSize,
      posY := snapToGrid item.posY st.gridSize,
      posZ := snapToGrid item.posZ st.gridSize }
  else item

/-- Axis parameter of `moveItem`, from its `'x' | 'y' | 'z'` union type. -/
inductive MoveAxis where
  | x
  | y
  | z
deriving DecidableEq, Repr

/-- Move-by-delta, from `moveItem` in src/definitions.ts: shift the
chosen axis clamping at 0, snap if enabled, validate against the current
collection, and revert the position (returning the unchanged state) when
invalid. -/
def moveItem (st : EngineState) (id : ℕ) (axis : MoveAxis) (delta : ℚ) :
    EngineState :=
  match st.items.find? (fun i => i.id == id) with
  | none => st
  | some item =>
    let moved :=
      match axis with
      | .x => { item with posX := max 0 (item.posX + delta) }
      | .y => { item with posY := max 0 (item.posY + delta) }
      | .z => { item with posZ := max 0 (item.posZ + delta) }
    let snapped := snapAllAxes st moved
    let newItems := updateFirst id (fun _ => snapped) st.items
    let result := validatePlacement snapped newItems st.containerSpec
    if result.valid then { st with items := newItems } else st

/-- Rotate, from `rotateItem` in src/definitions.ts: apply the requested
rotation (the rotation type arrives as a string; unknown strings rotate
nothing but still go through the reposition pipeline), clamp each axis
with `min(pos, max(0, container - dim))`, snap if enabled, lift to the
stacking level, snap Y again, validate, and revert everything (returning
the unchanged state) when invalid. -/
def rotateItem (st : EngineState) (id : ℕ) (rotationType : String) :
    EngineState :=
  match st.items.find? (fun i => i.id == id) with
  | none => st
  | some item =>
    let c := st.containerSpec
    let rotated :=
      if rotationType = "y" then rotateItemY item
      else if rotationType = "tipForward" then rotateItemTipForward item
      else if rotationType = "tipSide" then rotateItemTipSide item
      else item
    let clamped :=
      { rotated with
        posX := min rotated.posX (max 0 (c.lengthIn - rotated.lengthIn)),
        posZ := min rotated.posZ (max 0 (c.widthIn - rotated.widthIn)),
        posY := min rotated.posY (max 0 (c.heightIn - rotated.heightIn)) }
    let snapped := snapAllAxes st clamped
    let stackY := (findStackingY snapped
      (updateFirst id (fun _ => snapped) st.items) c).1
    let lifted := { snapped with posY := max snapped.posY stackY }
    let final :=
      if st.snapEnabled then { lifted with posY := snapToGrid lifted.posY st.gridSize }
      else lifted
    let newItems := updateFirst id (fun _ => final) st.items
    let result := validatePlacement final newItems c
    if result.valid then { st with items := newItems } else st

/-- The optional field updates accepted by `editItem`
(src/definitions.ts): a `Partial` pick of label, dimensions, weight,
category and color. -/
structure EditChanges where
  label : Option String := none
  lengthIn : Option ℚ := none
  widthIn : Option ℚ := none
  heightIn : Option ℚ := none
  weightLbs : Option ℚ := none
  category : Option ItemCategory := none
  color : Option String := none
deriving DecidableEq, Repr

/-- The color-mode reassignment at the end of `editItem`: category mode
recolors by category, weight mode by weight, custom mode keeps the color. -/
def applyCategoryColor (mode : ColorMode) (item : CargoItem) : CargoItem :=
  match mode with
  | .category => { item with color := CATEGORY_COLORS item.category }
  | .weight => { item with color := getWeightColor item.weightLbs }
  | .custom => item

/-- The Y-levels tried by the first recovery step of `editItem`
(src/definitions.ts): a set seeded with 0 plus the top surface of every
other item — with no ceiling-clearance filter — sorted ascending. -/
def editRecoveryLevels (otherItems : List CargoItem) : List ℚ :=
  List.insertionSort (· ≤ ·)
    ((0 :: otherItems.map (fun other => other.posY + other.heightIn)).dedup)

/-- Edit, from `editItem` in src/definitions.ts.  Apply the non-dimension
changes; if any dimension changed also reset the rotation counter, clamp
the position into the container, snap, lift to the stacking level and
snap Y again.  Validate; on failure with changed dimensions try every
`editRecoveryLevels` level at the saved X/Z, then fall back to a full
`autoPlace` over the collection without this item, and if even that
fails restore the snapshotted fields — the source restores the position
to the post-adjustment values `savedX/savedY/savedZ`, not the pre-call
position, and never restores the rotation counter it zeroed.  Successful
paths end with the color-mode reassignment. -/
def editItem (st : EngineState) (id : ℕ) (changes : EditChanges) :
    EngineState :=
  match st.items.find? (fun i => i.id == id) with
  | none => st
  | some item =>
    let c := st.containerSpec
    let base :=
      { item with
        label := changes.label.getD item.label,
        weightLbs := changes.weightLbs.getD item.weightLbs,
        category := changes.category.getD item.category,
        color := changes.color.getD item.color }
    let dimsChanged :=
      changes.lengthIn.isSome || changes.widthIn.isSome || changes.heightIn.isSome
    let adjusted :=
      if dimsChanged then
        let resized :=
          { base with
            lengthIn := changes.lengthIn.getD base.lengthIn,
            origLengthIn := changes.lengthIn.getD base.origLengthIn,
            widthIn := changes.widthIn.getD base.widthIn,
            origWidthIn := changes.widthIn.getD base.origWidthIn,
            heightIn := changes.heightIn.getD base.heightIn,
            origHeightIn := changes.heightIn.getD base.origHeightIn,
            rotationY := 0 }
        let clamped :=
          { resized with
            posX := max 0 (min resized.posX (c.lengthIn - resized.lengthIn)),
            posZ := max 0 (min resized.posZ (c.widthIn - resized.widthIn)),
            posY := max 0 (min resized.posY (c.heightIn - resized.heightIn)) }
        let snapped := snapAllAxes st clamped
        let stackY := (findStackingY snapped
          (updateFirst id (fun _ => snapped) st.items) c).1
        let lifted := { snapped with posY := max snapped.posY stackY }
        if st.snapEnabled then { lifted with posY := snapToGrid lifted.posY st.gridSize }
        else lifted
      else base
    let itemsAdjusted := updateFirst id (fun _ => adjusted) st.items
    let result := validatePlacement adjusted itemsAdjusted c
    if result.valid = false && dimsChanged then
      let savedX := adjusted.posX
      let savedY := adjusted.posY
      let savedZ := adjusted.posZ
      let otherItems := itemsAdjusted.filter (fun i => i.id != id)
      let atLevel := fun (y : ℚ) =>
        { adjusted with
          posX := savedX,
          posY := if st.snapEnabled then snapToGrid y st.gridSize else y,
          posZ := savedZ }
      let successLevel := (editRecoveryLevels otherItems).find? (fun y =>
        let candidate := atLevel y
        (validatePlacement candidate (updateFirst id (fun _ => candidate) st.items) c).valid)
      match successLevel with
      | some y =>
        let recolored := applyCategoryColor st.colorMode (atLevel y)
        { st with items := updateFirst id (fun _ => recolored) st.items }
      | none =>
        let replaced :=
          autoPlace (if st.snapEnabled then st.gridSize else 1) adjusted otherItems c
        let itemsReplaced := updateFirst id (fun _ => replaced) st.items
        let finalCheck := validatePlacement replaced itemsReplaced c
        if finalCheck.valid then
          let recolored := applyCategoryColor st.colorMode replaced
          { st with items := updateFirst id (fun _ => recolored) st.items }
        else
          let reverted :=
            { replaced with
              label := item.label,
              lengthIn := item.lengthIn,
              widthIn := item.widthIn,
              heightIn := item.heightIn,
              weightLbs := item.weightLbs,
              category := item.category,
              color := item.color,
              origLengthIn := item.origLengthIn,
              origWidthIn := item.origWidthIn,
              origHeightIn := item.origHeightIn,
              posX := savedX,
              posY := savedY,
              posZ := savedZ }
          { st with items := updateFirst id (fun _ => reverted) st.items }
    else
      let recolored := applyCategoryColor st.colorMode adjusted
      { st with items := updateFirst id (fun _ => recolored) st.items }

/-- Spec-side reading of one backing contribution in `isSupported`: the
clamped X-interval intersection times the clamped Z-interval
intersection of the two footprints. -/
def supportContribution (item : CargoItem) (other : CargoItem) : ℚ :=
  (max 0 (min (item.posX + item.lengthIn) (other.posX + other.lengthIn) -
    max item.posX other.posX)) *
  (max 0 (min (item.posZ + item.widthIn) (other.posZ + other.widthIn) -
    max item.posZ other.posZ))

/-- Spec-side reading of the summed backing area in `isSupported`: total
contribution of the other items whose top surface lies within 1 unit of
the item's bottom. -/
def supportSum (item : CargoItem) (allItems : List CargoItem) : ℚ :=
  ((allItems.filter (fun other => other.id != item.id &&
      decide (|other.posY + other.heightIn - item.posY| < 1))).map
    (supportContribution item)).sum

/-- Spec-side qualification test of `findStackingY`: a different item
whose X and Z footprint overlaps with the candidate both strictly exceed
0.5 and whose top surface leaves ceiling clearance for the candidate. -/
def stackCandidate (item : CargoItem) (c : ContainerSpec)
    (other : CargoItem) : Bool :=
  other.id != item.id &&
  decide (min (item.posX + item.lengthIn) (other.posX + other.lengthIn) -
    max item.posX other.posX > 1/2) &&
  decide (min (item.posZ + item.widthIn) (other.posZ + other.widthIn) -
    max item.posZ other.posZ > 1/2) &&
  decide (other.posY + other.heightIn + item.heightIn ≤ c.heightIn + 1/2)

/-- Spec-side front bucket of `getWeightDistribution`: total weight of
the items whose center is strictly below the X midpoint. -/
def frontWeight (items : List CargoItem) (midLength : ℚ) : ℚ :=
  ((items.filter (fun i => decide (i.posX + i.lengthIn / 2 < midLength))).map
    (fun i => i.weightLbs)).sum

/-- Spec-side back bucket of `getWeightDistribution`: total weight of
the items whose center is at or above the X midpoint. -/
def backWeight (items : List CargoItem) (midLength : ℚ) : ℚ :=
  ((items.filter (fun i => !decide (i.posX + i.lengthIn / 2 < midLength))).map
    (fun i => i.weightLbs)).sum

/-- Spec-side left bucket of `getWeightDistribution`: total weight of
the items whose center is strictly below the Z midpoint. -/
def leftWeight (items : List CargoItem) (midWidth : ℚ) : ℚ :=
  ((items.filter (fun i => decide (i.posZ + i.widthIn / 2 < midWidth))).map
    (fun i => i.weightLbs)).sum

/-- Spec-side right bucket of `getWeightDistribution`: total weight of
the items whose center is at or above the Z midpoint. -/
def rightWeight (items : List CargoItem) (midWidth : ℚ) : ℚ :=
  ((items.filter (fun i => !decide (i.posZ + i.widthIn / 2 < midWidth))).map
    (fun i => i.weightLbs)).sum

/-- Spec-side scan order of `autoPlace`: all candidate positions with Y
outermost, then X, then Z innermost, exactly as the specification
describes the loop nest. -/
def scanPositions (ys : List ℚ) (xs : List ℚ) (zs : List ℚ) :
    List (ℚ × ℚ × ℚ) :=
  ys.flatMap (fun y => xs.flatMap (fun x => zs.map (fun z => (x, y, z))))

/-- Fixture builder: a cargo item with the given id, dimensions, weight,
position and rotation counter, and neutral remaining fields. -/
def mkItem (id : ℕ) (l : ℚ) (w : ℚ) (h : ℚ) (wt : ℚ) (px : ℚ) (py : ℚ)
    (pz : ℚ) (rot : ℕ := 0) : CargoItem :=
  { id := id, label := "I", lengthIn := l, widthIn := w, heightIn := h,
    origLengthIn := l, origWidthIn := w, origHeightIn := h, weightLbs := wt,
    category := .general, color := "#5b8af5", posX := px, posY := py,
    posZ := pz, visible := true, rotationY := rot }

/-- Fixture: a 100 by 100 by 100 container. -/
def testContainer : ContainerSpec :=
  { name := "t", label := "t", lengthFt := 0, widthFt := 0, heightFt := 0,
    maxWeightLbs := 1000, lengthIn := 100, widthIn := 100, heightIn := 100 }

/-- Fixture: a 2 by 2 by 2 container for a small auto-placement scan. -/
def smallContainer : ContainerSpec :=
  { name := "s", label := "s", lengthFt := 0, widthFt := 0, heightFt := 0,
    maxWeightLbs := 10, lengthIn := 2, widthIn := 2, heightIn := 2 }

/-- Fixture: two boxes sharing the face x = 10 (touching, zero-width
intersection on the X axis). -/
def touchA : CargoItem := mkItem 1 10 10 10 100 0 0 0

/-- Fixture: the right-hand box of the touching pair. -/
def touchB : CargoItem := mkItem 2 10 10 10 100 10 0 0

/-- Fixture: an item at height 10 whose backing is probed at the 40%
boundary. -/
def supItem : CargoItem := mkItem 1 10 10 10 100 0 10 0

/-- Fixture: a backer giving X-intersection 4, hence exactly 40% backing
area (40 of 100). -/
def supBacker40 : CargoItem := mkItem 2 10 10 10 100 6 0 0

/-- Fixture: a backer giving X-intersection 3.9, hence 39% backing area. -/
def supBacker39 : CargoItem := mkItem 3 10 10 10 100 (61/10) 0 0

/-- Fixture: a floor-level candidate item for stacking queries. -/
def stackProbe : CargoItem := mkItem 1 10 10 10 100 0 0 0

/-- Fixture: a zero-height item whose top surface is at 0; it satisfies
every qualification condition of the stacking rule. -/
def stackZeroTop : CargoItem := mkItem 2 10 10 0 100 0 0 0

/-- Fixture: top surface at 0 for the three-level stacking scenario. -/
def stackTop0 : CargoItem := mkItem 2 10 10 0 100 0 0 0

/-- Fixture: top surface at 10 for the three-level stacking scenario. -/
def stackTop10 : CargoItem := mkItem 3 8 8 10 100 1 0 1

/-- Fixture: top surface at 20 for the three-level stacking scenario. -/
def stackTop20 : CargoItem := mkItem 4 6 6 20 100 2 0 2

/-- Fixture: floor item at x = 10 for the load-sequence scenario. -/
def loadX10 : CargoItem := mkItem 10 10 10 10 100 10 0 0

/-- Fixture: floor item at x = 50, same weight, for the load-sequence
scenario. -/
def loadX50 : CargoItem := mkItem 50 10 10 10 100 50 0 0

/-- Fixture: an item of height 10, so every top surface in the fixtures
leaves ceiling clearance. -/
def levelsItem : CargoItem := mkItem 1 10 10 10 100 0 0 0

/-- Fixture: an item whose top surface is at 50. -/
def levelsOther : CargoItem := mkItem 2 10 10 50 100 0 0 0

/-- Fixture: an item of height 60; a top surface at 50 leaves it no
ceiling clearance in the 100-high container. -/
def tallItem : CargoItem := mkItem 1 10 10 60 100 0 0 0

/-- Fixture: the height-50 item whose top level 50 is filtered out by
`findAllStackLevels` for `tallItem` but still tried by the edit
recovery. -/
def tallOther : CargoItem := mkItem 2 10 10 50 100 0 0 0

/-- Fixture: an auto-placement probe item parked outside the small
container. -/
def apProbe : CargoItem := mkItem 7 1 1 1 5 9 9 9

/-- Fixture: an item at (50,0,0), rotated once (its base is square so the
yaw swap kept the dimensions), subjected to an impossible resize. -/
def revertItem : CargoItem := mkItem 1 10 10 10 100 50 0 0 1

/-- Fixture: engine state holding only `revertItem`, snapping off. -/
def revertState : EngineState :=
  { items := [revertItem], containerSpec := testContainer,
    snapEnabled := false, gridSize := 6, colorMode := .custom }

/-- Fixture: a resize to 150 by 10 by 150, larger than the container on
two axes, so every placement and every recovery attempt fails. -/
def oversizeEdit : EditChanges := { lengthIn := some 150, heightIn := some 150 }

/-- Fixture: item A of the overlap-invariant scenario, at (50,0,0). -/
def invA : CargoItem := mkItem 1 10 10 10 100 50 0 0

/-- Fixture: item D of the overlap-invariant scenario, a 10 by 10 by 50
column at (2,0,0); it does not overlap `invA`. -/
def invD : CargoItem := mkItem 2 10 10 50 100 2 0 0

/-- Fixture: engine state holding `invA` and `invD`, snapping off. -/
def invState : EngineState :=
  { items := [invA, invD], containerSpec := testContainer,
    snapEnabled := false, gridSize := 6, colorMode := .custom }

/-- Fixture: items for the weight-distribution witness, one in each X
half. -/
def distItems : List CargoItem := [mkItem 1 10 10 10 100 0 0 0, mkItem 2 10 10 10 300 80 0 80]

/-- Claim C3: `checkOverlap(a,b)` is true iff on every one of the three
axes the boxes interpenetrate by strictly more than 0.01 units
(a.min < b.max - eps and a.max > b.min + eps on each axis), and two
boxes that merely share a face on some axis are never overlapping. -/
theorem checkOverlap_iff_interpenetration :
    (∀ a b : CargoItem, checkOverlap a b = true ↔
      (a.posX < b.posX + b.lengthIn - 1/100 ∧ a.posX + a.lengthIn > b.posX + 1/100 ∧
       a.posY < b.posY + b.heightIn - 1/100 ∧ a.posY + a.heightIn > b.posY + 1/100 ∧
       a.posZ < b.posZ + b.widthIn - 1/100 ∧ a.posZ + a.widthIn > b.posZ + 1/100)) ∧
    (∀ a b : CargoItem,
      (a.posX + a.lengthIn = b.posX ∨ b.posX + b.lengthIn = a.posX ∨
       a.posY + a.heightIn = b.posY ∨ b.posY + b.heightIn = a.posY ∨
       a.posZ + a.widthIn = b.posZ ∨ b.posZ + b.widthIn = a.posZ) →
      checkOverlap a b = false) := by
  constructor
  · intro a b
    simp [checkOverlap]
  · intro a b h
    simp only [checkOverlap, decide_eq_false_iff_not, not_and, not_lt]
    intro h1 h2 h3 h4 h5
    rcases h with h | h | h | h | h | h <;> linarith

/-- Witness for claim C3 at the concrete touching pair: the two boxes
share the face x = 10 and are reported as not overlapping. -/
theorem checkOverlap_iff_interpenetration_witness :
    checkOverlap touchA touchB = false :=
  checkOverlap_iff_interpenetration.2 touchA touchB (Or.inl (by decide))

/-- Claim C9: tipping forward swaps length with height, tipping sideways
swaps width with height, and both leave every other field of the item
unchanged, including the yaw rotation counter. -/
theorem rotateItemTip_swaps_only :
    ∀ item : CargoItem,
      (rotateItemTipForward item).lengthIn = item.heightIn ∧
      (rotateItemTipForward item).heightIn = item.lengthIn ∧
      (rotateItemTipForward item).widthIn = item.widthIn ∧
      (rotateItemTipForward item).rotationY = item.rotationY ∧
      (rotateItemTipForward item).posX = item.posX ∧
      (rotateItemTipForward item).posY = item.posY ∧
      (rotateItemTipForward item).posZ = item.posZ ∧
      (rotateItemTipForward item).origLengthIn = item.origLengthIn ∧
      (rotateItemTipForward item).origWidthIn = item.origWidthIn ∧
      (rotateItemTipForward item).origHeightIn = item.origHeightIn ∧
      (rotateItemTipForward item).weightLbs = item.weightLbs ∧
      (rotateItemTipForward item).category = item.category ∧
      (rotateItemTipForward item).label = item.label ∧
      (rotateItemTipForward item).color = item.color ∧
      (rotateItemTipForward item).visible = item.visible ∧
      (rotateItemTipForward item).id = item.id ∧
      (rotateItemTipSide item).widthIn = item.heightIn ∧
      (rotateItemTipSide item).heightIn = item.widthIn ∧
      (rotateItemTipSide item).lengthIn = item.lengthIn ∧
      (rotateItemTipSide item).rotationY = item.rotationY ∧
      (rotateItemTipSide item).posX = item.posX ∧
      (rotateItemTipSide item).posY = item.posY ∧
      (rotateItemTipSide item).posZ = item.posZ ∧
      (rotateItemTipSide item).origLengthIn = item.origLengthIn ∧
      (rotateItemTipSide item).origWidthIn = item.origWidthIn ∧
      (rotateItemTipSide item).origHeightIn = item.origHeightIn ∧
      (rotateItemTipSide item).weightLbs = item.weightLbs ∧
      (rotateItemTipSide item).category = item.category ∧
      (rotateItemTipSide item).label = item.label ∧
      (rotateItemTipSide item).color = item.color ∧
      (rotateItemTipSide item).visible = item.visible ∧
      (rotateItemTipSide item).id = item.id := by
  intro item
  repeat' apply And.intro
  all_goals rfl

/-- Claim C1 (code bug): the pairwise non-overlap invariant holds for
`invState` (items at (50,0,0) and (2,0,0) do not overlap), yet after an
`editItem` call whose recovery ladder fails the reverted item sits at the
clamped position (0,0,0) with its old 10-cube dimensions, overlapping the
column at (2,0,0): the mutation has destroyed the invariant. -/
theorem editItem_breaks_overlap_invariant :
    invState.items.Pairwise (fun a b => checkOverlap a b = false) ∧
    ¬ (editItem invState 1 oversizeEdit).items.Pairwise
      (fun a b => checkOverlap a b = false) := by
  decide

/-- Claim C2 (code bug): before the failed edit the item has rotation
counter 1 and position (50,0,0); after the failed edit — the recovery
ladder having exhausted every level and the auto-placement fallback —
the "reverted" item has rotation counter 0 and position (0,0,0), so the
observable state is not restored. -/
theorem editItem_failed_edit_not_reverted :
    revertState.items.map (fun i => (i.rotationY, i.posX, i.posY, i.posZ)) =
      [(1, 50, 0, 0)] ∧
    (editItem revertState 1 oversizeEdit).items.map
      (fun i => (i.rotationY, i.posX, i.posY, i.posZ)) = [(0, 0, 0, 0)] := by
  decide

/-- Claim C8 counterexample: for an item of height 60 and another item
whose top surface is at 50 in a 100-high container, the edit recovery
tries levels 0 and 50, while `findAllStackLevels` filters out level 50
for lack of ceiling clearance and returns only the floor: the two level
lists differ. -/
theorem editRecoveryLevels_claim_counterexample :
    editRecoveryLevels ([tallOther].filter (fun i => i.id != tallItem.id)) ≠
      findAllStackLevels tallItem [tallOther] testContainer := by
  decide

/-- Claim C5 counterexample: `stackZeroTop` satisfies every
qualification condition of the claim (distinct id, both overlaps exceed
0.5, ceiling clearance), so the claim requires `stackedOn` to be such a
maximizing item, but the code returns floor level with no stacking
target because its update condition demands a strictly positive gain
over the initial best level 0. -/
theorem findStackingY_claim_counterexample :
    stackCandidate stackProbe testContainer stackZeroTop = true ∧
    findStackingY stackProbe [stackZeroTop] testContainer = (0, none) := by
  decide

/-- The support-area fold of `isSupported` accumulates exactly the
spec-side `supportSum` on top of its initial value. -/
theorem supportStep_foldl (item : CargoItem) :
    ∀ (l : List CargoItem) (acc : ℚ),
      l.foldl (supportStep item) acc = acc + supportSum item l := by
  intro l
  induction l with
  | nil => intro acc; simp [supportSum]
  | cons o rest ih =>
    intro acc
    rw [List.foldl_cons, ih]
    unfold supportSum
    by_cases hid : o.id = item.id
    · simp [supportStep, hid]
    · by_cases hnear : |o.posY + o.heightIn - item.posY| < 1
      · simp only [supportStep, hid, if_false, hnear, if_true]
        rw [List.filter_cons_of_pos (by simp [hid, hnear])]
        simp [supportContribution]
        ring
      · simp only [supportStep, hid, if_false, hnear, if_true]
        rw [List.filter_cons_of_neg (by simp [hid, hnear])]

/-- Claim C4: `isSupported` returns true iff the item rests at floor
level (posY ≤ 0.1) or the summed backing area — over the other items
whose top surface is within 1 unit of the item's bottom, each
contributing the product of the clamped X and Z interval intersections —
reaches 40% of the item's own footprint; in particular a backing of
exactly 40% supports and a backing of 39% does not. -/
theorem isSupported_iff_backing :
    (∀ (item : CargoItem) (allItems : List CargoItem),
      isSupported item allItems = true ↔
        (item.posY ≤ 1/10 ∨
          supportSum item allItems ≥ 2/5 * (item.lengthIn * item.widthIn))) ∧
    isSupported supItem [supBacker40] = true ∧
    isSupported supItem [supBacker39] = false := by
  refine ⟨?_, by decide, by decide⟩
  intro item allItems
  unfold isSupported
  by_cases hfloor : item.posY ≤ 1/10
  · rw [if_pos hfloor]
    exact iff_of_true rfl (Or.inl hfloor)
  · rw [if_neg hfloor, supportStep_foldl, zero_add]
    simp only [decide_eq_true_eq]
    constructor
    · intro h
      exact Or.inr (by linarith [h])
    · intro h
      rcases h with h | h
      · exact absurd h hfloor
      · linarith [h]

/-- One stacking step either records a strictly higher qualifying top
surface together with its item, or keeps the accumulator unchanged. -/
theorem stackStep_eq (item : CargoItem) (c : ContainerSpec) (b : ℚ)
    (so : Option CargoItem) (other : CargoItem) :
    stackStep item c (b, so) other =
      if stackCandidate item c other = true ∧ other.posY + other.heightIn > b
      then (other.posY + other.heightIn, some other) else (b, so) := by
  unfold stackStep stackCandidate
  by_cases hid : other.id = item.id
  · simp [hid]
  · rw [if_neg hid]
    simp only [Bool.and_eq_true, bne_iff_ne, ne_eq, decide_eq_true_eq]
    split_ifs <;> first | rfl | tauto

/-- The initial value is a lower bound of a max-fold over rationals. -/
theorem le_foldl_max : ∀ (l : List ℚ) (b : ℚ), b ≤ l.foldl max b := by
  intro l
  induction l with
  | nil => intro b; exact le_refl b
  | cons a l ih => intro b; exact le_trans (le_max_left b a) (ih (max b a))

/-- Invariant of the `findStackingY` fold, for any starting accumulator:
the resulting level is the max-fold of the qualifying top surfaces over
the start level; any strict improvement is witnessed by a qualifying
item recorded in the result; and if the level did not move, the recorded
target did not either. -/
theorem stackFold_spec (item : CargoItem) (c : ContainerSpec) :
    ∀ (l : List CargoItem) (b : ℚ) (so : Option CargoItem),
      (l.foldl (stackStep item c) (b, so)).1 =
        ((l.filter (stackCandidate item c)).map
          (fun o => o.posY + o.heightIn)).foldl max b ∧
      (b < (l.foldl (stackStep item c) (b, so)).1 →
        ∃ o, (l.foldl (stackStep item c) (b, so)).2 = some o ∧ o ∈ l ∧
          stackCandidate item c o = true ∧
          o.posY + o.heightIn = (l.foldl (stackStep item c) (b, so)).1) ∧
      ((l.foldl (stackStep item c) (b, so)).1 = b →
        (l.foldl (stackStep item c) (b, so)).2 = so) := by
  intro l
  induction l with
  | nil =>
    intro b so
    exact ⟨rfl, fun h => absurd h (lt_irrefl b), fun _ => rfl⟩
  | cons o rest ih =>
    intro b so
    rw [List.foldl_cons, stackStep_eq]
    by_cases hc : stackCandidate item c o = true ∧ o.posY + o.heightIn > b
    · rw [if_pos hc]
      obtain ⟨hcand, htop⟩ := hc
      obtain ⟨ih1, ih2, ih3⟩ := ih (o.posY + o.heightIn) (some o)
      have hge : o.posY + o.heightIn ≤
          (rest.foldl (stackStep item c) (o.posY + o.heightIn, some o)).1 := by
        rw [ih1]; exact le_foldl_max _ _
      refine ⟨?_, ?_, ?_⟩
      · rw [ih1, List.filter_cons_of_pos hcand]
        simp [max_eq_right htop.le]
      · intro _
        rcases eq_or_lt_of_le hge with heq | hlt2
        · exact ⟨o, ih3 heq.symm, List.mem_cons_self o rest, hcand, heq⟩
        · obtain ⟨o2, ho2, hmem, hcand2, htopeq⟩ := ih2 hlt2
          exact ⟨o2, ho2, List.mem_cons_of_mem o hmem, hcand2, htopeq⟩
      · intro heqb
        exfalso
        rw [heqb] at hge
        exact absurd htop (not_lt.mpr hge)
    · rw [if_neg hc]
      obtain ⟨ih1, ih2, ih3⟩ := ih b so
      by_cases hcand : stackCandidate item c o = true
      · have htople : o.posY + o.heightIn ≤ b := by
          by_contra hgt
          exact hc ⟨hcand, lt_of_not_le hgt⟩
        refine ⟨?_, ?_, ih3⟩
        · rw [ih1, List.filter_cons_of_pos hcand]
          simp [max_eq_left htople]
        · intro hlt
          obtain ⟨o2, ho2, hmem, hcand2, htopeq⟩ := ih2 hlt
          exact ⟨o2, ho2, List.mem_cons_of_mem o hmem, hcand2, htopeq⟩
      · rw [List.filter_cons_of_neg hcand]
        refine ⟨ih1, ?_, ih3⟩
        intro hlt
        obtain ⟨o2, ho2, hmem, hcand2, htopeq⟩ := ih2 hlt
        exact ⟨o2, ho2, List.mem_cons_of_mem o hmem, hcand2, htopeq⟩

/-- Claim C5 (amended): `findStackingY` returns the maximum of 0 and the
top levels of the qualifying other items (distinct id, X and Z overlaps
strictly above 0.5, ceiling clearance); when that level is strictly
positive the stacking target is a qualifying item whose top equals it,
and when the level is 0 the target is null — even when a qualifying item
with top level exactly 0 exists, which is where the original claim
fails.  In the spec scenario with mutually overlapping footprints topped
at 0, 10 and 20 the result is 20. -/
theorem findStackingY_highest_candidate :
    (∀ (item : CargoItem) (allItems : List CargoItem) (c : ContainerSpec),
      (findStackingY item allItems c).1 =
        ((allItems.filter (stackCandidate item c)).map
          (fun o => o.posY + o.heightIn)).foldl max 0 ∧
      (0 < (findStackingY item allItems c).1 →
        ∃ o, (findStackingY item allItems c).2 = some o ∧ o ∈ allItems ∧
          stackCandidate item c o = true ∧
          o.posY + o.heightIn = (findStackingY item allItems c).1) ∧
      ((findStackingY item allItems c).1 = 0 →
        (findStackingY item allItems c).2 = none)) ∧
    (findStackingY stackProbe [stackTop0, stackTop10, stackTop20]
      testContainer).1 = 20 := by
  refine ⟨?_, by decide⟩
  intro item allItems c
  exact stackFold_spec item c allItems 0 none

/-- Witness for claim C5 at the three-level scenario: the resulting
level 20 is strictly positive, so the theorem yields a qualifying
stacking target whose top surface is that level. -/
theorem findStackingY_highest_candidate_witness :
    ∃ o, (findStackingY stackProbe [stackTop0, stackTop10, stackTop20]
        testContainer).2 = some o ∧
      o ∈ [stackTop0, stackTop10, stackTop20] ∧
      stackCandidate stackProbe testContainer o = true ∧
      o.posY + o.heightIn = (findStackingY stackProbe
        [stackTop0, stackTop10, stackTop20] testContainer).1 :=
  ((findStackingY_highest_candidate.1 stackProbe
    [stackTop0, stackTop10, stackTop20] testContainer).2.1) (by decide)

/-- Splitting a weight sum along any boolean predicate and its negation
recovers the total. -/
theorem weight_filter_split (p : CargoItem → Bool) :
    ∀ l : List CargoItem,
      ((l.filter p).map (fun i => i.weightLbs)).sum +
        ((l.filter (fun i => !p i)).map (fun i => i.weightLbs)).sum =
      (l.map (fun i => i.weightLbs)).sum := by
  intro l
  induction l with
  | nil => simp
  | cons i rest ih =>
    by_cases h : p i
    · rw [List.filter_cons_of_pos h, List.filter_cons_of_neg (by simp [h])]
      simp only [List.map_cons, List.sum_cons]
      linarith [ih]
    · rw [List.filter_cons_of_neg h, List.filter_cons_of_pos (by simp [h])]
      simp only [List.map_cons, List.sum_cons]
      linarith [ih]

/-- The running-total fold of `calculateTotalWeight` equals its start
plus the weight sum. -/
theorem foldl_weight_sum :
    ∀ (l : List CargoItem) (a : ℚ),
      l.foldl (fun sum item => sum + item.weightLbs) a =
        a + (l.map (fun i => i.weightLbs)).sum := by
  intro l
  induction l with
  | nil => intro a; simp
  | cons i rest ih =>
    intro a
    rw [List.foldl_cons, ih]
    simp only [List.map_cons, List.sum_cons]
    ring

/-- `calculateTotalWeight` is the weight sum of the list. -/
theorem calculateTotalWeight_eq_sum (items : List CargoItem) :
    calculateTotalWeight items = (items.map (fun i => i.weightLbs)).sum := by
  unfold calculateTotalWeight
  rw [foldl_weight_sum]
  ring

/-- One quadrant step adds the item's weight to exactly one of
front/back, exactly one of left/right, and to the total. -/
theorem weightAccStep_eq (midL : ℚ) (midW : ℚ) (acc : WeightAcc)
    (i : CargoItem) :
    weightAccStep midL midW acc i =
      ⟨acc.front + (if i.posX + i.lengthIn / 2 < midL then i.weightLbs else 0),
       acc.back + (if i.posX + i.lengthIn / 2 < midL then 0 else i.weightLbs),
       acc.left + (if i.posZ + i.widthIn / 2 < midW then i.weightLbs else 0),
       acc.right + (if i.posZ + i.widthIn / 2 < midW then 0 else i.weightLbs),
       acc.totalW + i.weightLbs⟩ := by
  unfold weightAccStep
  by_cases hx : i.posX + i.lengthIn / 2 < midL <;>
    by_cases hz : i.posZ + i.widthIn / 2 < midW <;>
    simp [hx, hz]

/-- The quadrant fold of `getWeightDistribution` adds the four spec-side
bucket sums and the weight total onto the starting accumulator. -/
theorem weightAcc_foldl (midL : ℚ) (midW : ℚ) :
    ∀ (l : List CargoItem) (acc : WeightAcc),
      l.foldl (weightAccStep midL midW) acc =
        ⟨acc.front + frontWeight l midL, acc.back + backWeight l midL,
         acc.left + leftWeight l midW, acc.right + rightWeight l midW,
         acc.totalW + (l.map (fun i => i.weightLbs)).sum⟩ := by
  intro l
  induction l with
  | nil =>
    intro acc
    simp [frontWeight, backWeight, leftWeight, rightWeight]
  | cons i rest ih =>
    intro acc
    rw [List.foldl_cons, weightAccStep_eq, ih]
    unfold frontWeight backWeight leftWeight rightWeight
    by_cases hx : i.posX + i.lengthIn / 2 < midL
    · by_cases hz : i.posZ + i.widthIn / 2 < midW
      · rw [List.filter_cons_of_pos (by simpa using hx),
          List.filter_cons_of_neg (by simp [hx]),
          List.filter_cons_of_pos (by simpa using hz),
          List.filter_cons_of_neg (by simp [hz])]
        simp only [if_pos hx, if_pos hz, List.map_cons, List.sum_cons,
          WeightAcc.mk.injEq]
        refine ⟨by ring, by ring, by ring, by ring, by ring⟩
      · rw [List.filter_cons_of_pos (by simpa using hx),
          List.filter_cons_of_neg (by simp [hx]),
          List.filter_cons_of_neg (by simpa using hz),
          List.filter_cons_of_pos (by simp [hz])]
        simp only [if_pos hx, if_neg hz, List.map_cons, List.sum_cons,
          WeightAcc.mk.injEq]
        refine ⟨by ring, by ring, by ring, by ring, by ring⟩
    · by_cases hz : i.posZ + i.widthIn / 2 < midW
      · rw [List.filter_cons_of_neg (by simpa using hx),
          List.filter_cons_of_pos (by simp [hx]),
          List.filter_cons_of_pos (by simpa using hz),
          List.filter_cons_of_neg (by simp [hz])]
        simp only [if_neg hx, if_pos hz, List.map_cons, List.sum_cons,
          WeightAcc.mk.injEq]
        refine ⟨by ring, by ring, by ring, by ring, by ring⟩
      · rw [List.filter_cons_of_neg (by simpa using hx),
          List.filter_cons_of_pos (by simp [hx]),
          List.filter_cons_of_neg (by simpa using hz),
          List.filter_cons_of_pos (by simp [hz])]
        simp only [if_neg hx, if_neg hz, List.map_cons, List.sum_cons,
          WeightAcc.mk.injEq]
        refine ⟨by ring, by ring, by ring, by ring, by ring⟩

/-- Claim C10: with strictly positive total weight,
`getWeightDistribution` counts each item's full weight in exactly one of
the front/back buckets (center strictly below the X midpoint counts as
front, otherwise back) and one of the left/right buckets (analogously
for Z), the four percentages are the bucket sums over the total times
100, and in exact rational arithmetic front + back = 100 and
left + right = 100. -/
theorem getWeightDistribution_buckets :
    ∀ (items : List CargoItem) (c : ContainerSpec),
      0 < calculateTotalWeight items →
      ((getWeightDistribution items c).front =
          frontWeight items (c.lengthIn / 2) / calculateTotalWeight items * 100 ∧
        (getWeightDistribution items c).back =
          backWeight items (c.lengthIn / 2) / calculateTotalWeight items * 100 ∧
        (getWeightDistribution items c).left =
          leftWeight items (c.widthIn / 2) / calculateTotalWeight items * 100 ∧
        (getWeightDistribution items c).right =
          rightWeight items (c.widthIn / 2) / calculateTotalWeight items * 100) ∧
      frontWeight items (c.lengthIn / 2) + backWeight items (c.lengthIn / 2) =
        calculateTotalWeight items ∧
      leftWeight items (c.widthIn / 2) + rightWeight items (c.widthIn / 2) =
        calculateTotalWeight items ∧
      (getWeightDistribution items c).front +
        (getWeightDistribution items c).back = 100 ∧
      (getWeightDistribution items c).left +
        (getWeightDistribution items c).right = 100 := by
  intro items c hpos
  have hsum := calculateTotalWeight_eq_sum items
  have hfb : frontWeight items (c.lengthIn / 2) + backWeight items (c.lengthIn / 2) =
      calculateTotalWeight items := by
    rw [hsum]
    exact weight_filter_split _ items
  have hlr : leftWeight items (c.widthIn / 2) + rightWeight items (c.widthIn / 2) =
      calculateTotalWeight items := by
    rw [hsum]
    exact weight_filter_split _ items
  have hne : (items.map (fun i => i.weightLbs)).sum ≠ 0 := by
    rw [← hsum]
    exact ne_of_gt hpos
  have hacc : items.foldl (weightAccStep (c.lengthIn / 2) (c.widthIn / 2))
      ⟨0, 0, 0, 0, 0⟩ =
      ⟨frontWeight items (c.lengthIn / 2), backWeight items (c.lengthIn / 2),
       leftWeight items (c.widthIn / 2), rightWeight items (c.widthIn / 2),
       (items.map (fun i => i.weightLbs)).sum⟩ := by
    rw [weightAcc_foldl]
    simp
  have hdist : getWeightDistribution items c =
      { front := frontWeight items (c.lengthIn / 2) / calculateTotalWeight items * 100,
        back := backWeight items (c.lengthIn / 2) / calculateTotalWeight items * 100,
        left := leftWeight items (c.widthIn / 2) / calculateTotalWeight items * 100,
        right := rightWeight items (c.widthIn / 2) / calculateTotalWeight items * 100 } := by
    simp only [getWeightDistribution]
    rw [hacc, if_neg (by simpa using hne), hsum]
  rw [hdist]
  have hne2 : calculateTotalWeight items ≠ 0 := ne_of_gt hpos
  refine ⟨⟨rfl, rfl, rfl, rfl⟩, hfb, hlr, ?_, ?_⟩
  · field_simp
    linarith [hfb]
  · field_simp
    linarith [hlr]

/-- Witness for claim C10 at a concrete two-item list with positive
total weight: the front and back percentages add to exactly 100. -/
theorem getWeightDistribution_buckets_witness :
    0 < calculateTotalWeight distItems ∧
    (getWeightDistribution distItems testContainer).front +
      (getWeightDistribution distItems testContainer).back = 100 :=
  ⟨by decide,
    (getWeightDistribution_buckets distItems testContainer (by decide)).2.2.2.1⟩

/-- The step-construction loop emits exactly the given items in order,
numbered consecutively from its starting index plus one. -/
theorem buildSteps_shape (V : ℚ) :
    ∀ (l : List CargoItem) (i : ℕ) (cw cv : ℚ),
      (buildSteps V l i cw cv).map LoadStep.item = l ∧
      (buildSteps V l i cw cv).map LoadStep.stepNumber =
        List.range' (i + 1) l.length := by
  intro l
  induction l with
  | nil => intro i cw cv; exact ⟨rfl, rfl⟩
  | cons item rest ih =>
    intro i cw cv
    obtain ⟨ih1, ih2⟩ := ih (i + 1) (cw + item.weightLbs)
      (cv + item.lengthIn * item.widthIn * item.heightIn)
    constructor
    · simp only [buildSteps, List.map_cons]
      rw [ih1]
    · simp only [buildSteps, List.map_cons, List.length_cons, List.range'_succ]
      rw [ih2]

/-- Claim C7: the loading comparator orders two items by the four-tier
dead-zone key — ascending Y with ties within 1 unit falling through,
then descending weight with ties within 10 falling through, then
ascending X with ties within 1 falling through, then ascending Z exactly
— the generated plan is that comparator sort of the items numbered by
consecutive step numbers from 1, and in the concrete scenario of two
equal-weight floor items at x = 10 and x = 50 the item at x = 10
receives step number 1. -/
theorem generateLoadPlan_tiered_order :
    (∀ a b : CargoItem, loadCompare a b < 0 ↔
      (b.posY - a.posY > 1 ∨
        (|a.posY - b.posY| ≤ 1 ∧
          (a.weightLbs - b.weightLbs > 10 ∨
            (|b.weightLbs - a.weightLbs| ≤ 10 ∧
              (b.posX - a.posX > 1 ∨
                (|a.posX - b.posX| ≤ 1 ∧ a.posZ < b.posZ))))))) ∧
    (∀ (items : List CargoItem) (c : ContainerSpec),
      (generateLoadPlan items c).map LoadStep.item =
        List.insertionSort (fun a b => loadCompare a b ≤ 0) items ∧
      (generateLoadPlan items c).map LoadStep.stepNumber =
        List.range' 1 items.length) ∧
    (generateLoadPlan [loadX50, loadX10] testContainer).map
      (fun s => (s.stepNumber, s.item.id)) = [(1, 10), (2, 50)] := by
  refine ⟨?_, ?_, by decide⟩
  · intro a b
    simp only [loadCompare]
    split_ifs with h1 h2 h3
    · rw [gt_iff_lt, lt_abs] at h1
      constructor
      · intro h
        left
        rcases h1 with h1a | h1a <;> linarith
      · rintro (h | ⟨hle, -⟩)
        · linarith
        · rw [abs_le] at hle
          rcases h1 with h1a | h1a <;> linarith
    · rw [gt_iff_lt, not_lt] at h1
      rw [gt_iff_lt, lt_abs] at h2
      constructor
      · intro h
        right
        refine ⟨h1, Or.inl ?_⟩
        rcases h2 with h2a | h2a <;> linarith
      · rintro (h | ⟨-, h'⟩)
        · have := abs_le.mp h1
          linarith [this.1]
        · rcases h' with h | ⟨hwle, -⟩
          · linarith
          · rw [abs_le] at hwle
            rcases h2 with h2a | h2a <;> linarith
    · rw [gt_iff_lt, not_lt] at h1 h2
      rw [gt_iff_lt, lt_abs] at h3
      constructor
      · intro h
        right
        refine ⟨h1, Or.inr ⟨h2, Or.inl ?_⟩⟩
        rcases h3 with h3a | h3a <;> linarith
      · rintro (h | ⟨-, h'⟩)
        · have := abs_le.mp h1
          linarith [this.1]
        · rcases h' with h | ⟨-, h''⟩
          · have := abs_le.mp h2
            linarith [this.1]
          · rcases h'' with h | ⟨hxle, -⟩
            · linarith
            · rw [abs_le] at hxle
              rcases h3 with h3a | h3a <;> linarith
    · rw [gt_iff_lt, not_lt] at h1 h2 h3
      constructor
      · intro h
        exact Or.inr ⟨h1, Or.inr ⟨h2, Or.inr ⟨h3, by linarith⟩⟩⟩
      · rintro (h | ⟨-, h'⟩)
        · have := abs_le.mp h1
          linarith [this.1]
        · rcases h' with h | ⟨-, h''⟩
          · have := abs_le.mp h2
            linarith [this.1]
          · rcases h'' with h | ⟨-, hz⟩
            · have := abs_le.mp h3
              linarith [this.1]
            · linarith
  · intro items c
    by_cases hemp : items.isEmpty
    · have hnil : items = [] := List.isEmpty_iff.mp hemp
      subst hnil
      exact ⟨rfl, rfl⟩
    · simp only [generateLoadPlan, if_neg hemp]
      obtain ⟨h1, h2⟩ := buildSteps_shape (c.lengthIn * c.widthIn * c.heightIn)
        (List.insertionSort (fun a b => loadCompare a b ≤ 0) items) 0 0 0
      refine ⟨h1, ?_⟩
      rw [h2]
      congr 1
      exact (List.perm_insertionSort _ items).length_eq

/-- Claim C8 (amended): the level list tried by the edit recovery is
sorted ascending and holds exactly floor 0 plus the top surface of every
other item, with no ceiling-clearance filter; and it coincides with
`findAllStackLevels(item, otherItems, container)` whenever every other
item's top surface leaves ceiling clearance for the item (the
counterexample shows the claimed equality fails without that condition). -/
theorem editRecoveryLevels_vs_findAllStackLevels :
    (∀ otherItems : List CargoItem,
      (editRecoveryLevels otherItems).Pairwise (· ≤ ·) ∧
      (∀ y : ℚ, y ∈ editRecoveryLevels otherItems ↔
        (y = 0 ∨ ∃ other ∈ otherItems, other.posY + other.heightIn = y))) ∧
    (∀ (item : CargoItem) (allItems : List CargoItem) (c : ContainerSpec),
      (∀ other ∈ allItems, other.id ≠ item.id →
        other.posY + other.heightIn + item.heightIn ≤ c.heightIn + 1/2) →
      editRecoveryLevels (allItems.filter (fun i => i.id != item.id)) =
        findAllStackLevels item allItems c) := by
  constructor
  · intro otherItems
    constructor
    · exact List.sorted_insertionSort _ _
    · intro y
      unfold editRecoveryLevels
      rw [List.Perm.mem_iff (List.perm_insertionSort _ _), List.mem_dedup,
        List.mem_cons]
      simp [List.mem_map, eq_comm]
  · intro item allItems c h
    unfold editRecoveryLevels findAllStackLevels
    have hfilter : allItems.filter (fun i => i.id != item.id) =
        allItems.filter (fun other => other.id != item.id &&
          decide (other.posY + other.heightIn + item.heightIn ≤ c.heightIn + 1/2)) := by
      apply List.filter_congr
      intro o ho
      by_cases hid : o.id = item.id
      · simp [hid]
      · have h1 : (o.id != item.id) = true := by simp [hid]
        have h2 : decide (o.posY + o.heightIn + item.heightIn ≤ c.heightIn + 1/2) =
            true := decide_eq_true (h o ho hid)
        rw [h1, h2]
        rfl
    rw [hfilter]

/-- Witness for claim C8 at a concrete input satisfying the clearance
hypothesis: for an item of height 10 and one other item topped at 50 in
the 100-high container, the recovery levels equal the
`findAllStackLevels` output. -/
theorem editRecoveryLevels_vs_findAllStackLevels_witness :
    editRecoveryLevels ([levelsOther].filter (fun i => i.id != levelsItem.id)) =
      findAllStackLevels levelsItem [levelsOther] testContainer :=
  editRecoveryLevels_vs_findAllStackLevels.2 levelsItem [levelsOther]
    testContainer (by decide)

/-- The innermost Z loop returns the first accepted candidate among the
positions it enumerates. -/
theorem scanZ_eq_find (ok : ℚ → ℚ → ℚ → Bool) (x y : ℚ) :
    ∀ zs : List ℚ,
      scanZ ok x y zs =
        (zs.map (fun z => (x, y, z))).find? (fun p => ok p.1 p.2.1 p.2.2) := by
  intro zs
  induction zs with
  | nil => rfl
  | cons z zs ih =>
    simp only [scanZ, List.map_cons, List.find?_cons]
    by_cases h : ok x y z
    · simp [h]
    · simp [h, ih]

/-- The X loop returns the first accepted candidate of its flattened
X-then-Z enumeration. -/
theorem scanX_eq_find (ok : ℚ → ℚ → ℚ → Bool) (y : ℚ) (zs : List ℚ) :
    ∀ xs : List ℚ,
      scanX ok y zs xs =
        (xs.flatMap (fun x => zs.map (fun z => (x, y, z)))).find?
          (fun p => ok p.1 p.2.1 p.2.2) := by
  intro xs
  induction xs with
  | nil => rfl
  | cons x xs ih =>
    simp only [scanX, List.flatMap_cons]
    rw [List.find?_append, ← ih, ← scanZ_eq_find]
    cases hsz : scanZ ok x y zs with
    | none => rfl
    | some p => rfl

/-- The Y loop returns the first accepted candidate of the full Y-major,
then X, then Z scan order. -/
theorem scanY_eq_find (ok : ℚ → ℚ → ℚ → Bool) (xs : List ℚ) (zs : List ℚ) :
    ∀ ys : List ℚ,
      scanY ok xs zs ys =
        (scanPositions ys xs zs).find? (fun p => ok p.1 p.2.1 p.2.2) := by
  intro ys
  induction ys with
  | nil => rfl
  | cons y ys ih =>
    simp only [scanPositions] at ih
    simp only [scanY, scanPositions, List.flatMap_cons]
    rw [List.find?_append, ← ih, ← scanX_eq_find]
    cases hsx : scanX ok y zs xs with
    | none => rfl
    | some p => rfl

/-- With a positive step, the loop values of `gridRange` are exactly the
multiples of the step lying in the interval from 0 to the bound. -/
theorem gridRange_mem (step : ℚ) (hstep : 0 < step) (bound v : ℚ) :
    v ∈ gridRange bound step ↔ ∃ k : ℕ, v = (k : ℚ) * step ∧ v ≤ bound := by
  unfold gridRange
  constructor
  · intro hv
    obtain ⟨k, hk, hfk⟩ := List.mem_map.mp hv
    have hkr : k < (if 0 ≤ bound then ⌊bound / step⌋₊ + 1 else 0) :=
      List.mem_range.mp hk
    refine ⟨k, hfk.symm, ?_⟩
    by_cases hb : 0 ≤ bound
    · rw [if_pos hb] at hkr
      have hk2 : k ≤ ⌊bound / step⌋₊ := Nat.lt_succ_iff.mp hkr
      have hk3 : (k : ℚ) ≤ bound / step :=
        le_trans (Nat.cast_le.mpr hk2) (Nat.floor_le (div_nonneg hb hstep.le))
      have hkb : (k : ℚ) * step ≤ bound := by
        calc (k : ℚ) * step ≤ (bound / step) * step :=
              mul_le_mul_of_nonneg_right hk3 hstep.le
          _ = bound := div_mul_cancel₀ bound (ne_of_gt hstep)
      rw [← hfk]
      exact hkb
    · rw [if_neg hb] at hkr
      exact absurd hkr (Nat.not_lt_zero k)
  · rintro ⟨k, hv, hle⟩
    subst hv
    apply List.mem_map.mpr
    refine ⟨k, List.mem_range.mpr ?_, rfl⟩
    have hb : 0 ≤ bound :=
      le_trans (mul_nonneg (Nat.cast_nonneg k) hstep.le) hle
    rw [if_pos hb, Nat.lt_succ_iff]
    exact Nat.le_floor (by rw [le_div_iff₀ hstep]; exact hle)

/-- With a positive step, the loop values of `gridRange` are strictly
increasing, so the scan visits each axis in ascending order. -/
theorem gridRange_sorted (step : ℚ) (hstep : 0 < step) (bound : ℚ) :
    (gridRange bound step).Pairwise (· < ·) := by
  unfold gridRange
  rw [List.pairwise_map]
  exact List.Pairwise.imp
    (fun hab => mul_lt_mul_of_pos_right (by exact_mod_cast hab) hstep)
    (List.pairwise_lt_range _)

/-- Claim C6: with a positive grid step, the candidate coordinates are
exactly the multiples of the step within each container-minus-item
bound, visited in ascending order with Y outermost, then X, then Z; the
item is left at the first scanned position that validates with no errors
and no warnings, and if no scanned position qualifies it is left at
posX = 0, posZ = 0 with posY given by `findStackingY` computed at
(0,0,0). -/
theorem autoPlace_first_accepted (gridStep : ℚ) (hstep : 0 < gridStep)
    (item : CargoItem) (items : List CargoItem) (c : ContainerSpec) :
    (∀ bound v, v ∈ gridRange bound gridStep ↔
      ∃ k : ℕ, v = (k : ℚ) * gridStep ∧ v ≤ bound) ∧
    (∀ bound, (gridRange bound gridStep).Pairwise (· < ·)) ∧
    autoPlace gridStep item items c =
      ((scanPositions (gridRange (c.heightIn - item.heightIn) gridStep)
          (gridRange (c.lengthIn - item.lengthIn) gridStep)
          (gridRange (c.widthIn - item.widthIn) gridStep)).find?
        (fun p => apValidAt item items c p.1 p.2.1 p.2.2)).elim
        { placeAt item 0 0 0 with
            posY := (findStackingY (placeAt item 0 0 0) items c).1 }
        (fun p => placeAt item p.1 p.2.1 p.2.2) := by
  refine ⟨fun bound v => gridRange_mem gridStep hstep bound v,
    fun bound => gridRange_sorted gridStep hstep bound, ?_⟩
  simp only [autoPlace]
  rw [scanY_eq_find]
  cases hf : (scanPositions (gridRange (c.heightIn - item.heightIn) gridStep)
      (gridRange (c.lengthIn - item.lengthIn) gridStep)
      (gridRange (c.widthIn - item.widthIn) gridStep)).find?
      (fun p => apValidAt item items c p.1 p.2.1 p.2.2) with
  | none => rfl
  | some p =>
    obtain ⟨x, y, z⟩ := p
    rfl

/-- Witness for claim C6: with step 1 in the 2-cube container and no
other items, the scan accepts its very first position and the probe item
is placed at the origin. -/
theorem autoPlace_first_accepted_witness :
    (0 : ℚ) < 1 ∧ autoPlace 1 apProbe [] smallContainer = placeAt apProbe 0 0 0 := by
  constructor
  · decide
  · rw [(autoPlace_first_accepted 1 (by decide) apProbe [] smallContainer).2.2]
    decide
